import Mathlib

set_option linter.unusedVariables false

/-!
Shallow embedding of `src/holytunnel.c` (rlapz/holy_tunnel): the Server /
Worker / Client connection-handling engine.

Modelling conventions:
* C `int` state and type codes are `Nat` constants with the values the C
  enums give them (`_CLIENT_STATE_HEADER = 0`, ...).
* A worker's `Mempool clients` slab is a `List (Option Client)`: index =
  slot, `none` = free slot.  A `Client *` pointer is a slot index; the
  `peer` pointer is `Option Nat`.
* `epoll_ctl` and `mempool_alloc` can fail for reasons outside the
  program (kernel, OOM); their success/failure is passed in as explicit
  `Bool` parameters (`modOk`, `delOk`, `addOk`, `allocOk`).
* Side effects (epoll calls, `close`, `url_free`, `mempool_free`, the
  final `client->state = state` store of the dispatcher, socket writes)
  are recorded in an `Action` trace in program order.  `abort()` is the
  `ExecResult.aborted` constructor: nothing executes after it.
* The `HttpRequest request` / `Url url` fields of `struct client` are
  not read by any modelled code path (the state handlers in this
  revision of the source are stubs); they are omitted from the record,
  and `url_free` is kept as a trace action.
-/

namespace HolyTunnel

def _CLIENT_STATE_HEADER : Nat := 0

def _CLIENT_STATE_RESOLVER : Nat := 1

def _CLIENT_STATE_CONNECT : Nat := 2

def _CLIENT_STATE_RESPONSE : Nat := 3

def _CLIENT_STATE_FORWARD_HEADER : Nat := 4

def _CLIENT_STATE_FORWARD_ALL : Nat := 5

def _CLIENT_STATE_STOP : Nat := 6

def _CLIENT_TYPE_HTTP : Nat := 0

def _CLIENT_TYPE_HTTPS : Nat := 1

/-- The `EPOLLIN` bit of `struct epoll_event.events`. -/
def EPOLLIN : Nat := 1

/-- The `EPOLLOUT` bit of `struct epoll_event.events`. -/
def EPOLLOUT : Nat := 4

/-- Model of `struct client` in `holytunnel.c` (see the module comment for the
omitted `request`/`url` fields). `events` is `event.events`; `peer` is
the peer pointer as a slab-slot index. -/
structure Client where
  type : Nat
  state : Nat
  src_fd : Int
  trg_fd : Int
  events : Nat
  peer : Option Nat
  sent : Nat
  recvd : Nat
  buffer : List Char
  deriving DecidableEq, Repr, Inhabited

/-- The slab (`Mempool clients`) of one worker: slot `i` holds `some c`
when allocated, `none` when free. -/
structure WorkerState where
  slots : List (Option Client)
  deriving DecidableEq, Repr, Inhabited

/-- Dereference a `Client *`: the record in slot `i`, if allocated. -/
def getSlot (w : WorkerState) (i : Nat) : Option Client :=
  (w.slots[i]?).join

/-- Store through a `Client *`: update the record in slot `i` in place
(no-op on a free slot, which the C program never does). -/
def updateSlot (w : WorkerState) (i : Nat) (f : Client → Client) : WorkerState :=
  ⟨w.slots.set i ((getSlot w i).map f)⟩

/-- Operation `mempool_free(&w->clients, client)`: return slot `i` to the free list. -/
def mempool_free (w : WorkerState) (i : Nat) : WorkerState :=
  ⟨w.slots.set i none⟩

/-- Operation `mempool_alloc(&w->clients)`: reuse the first free slot, or grow the
slab by one record.  (Growth failure, i.e. a NULL return, is the
`allocOk = false` parameter at the call sites.)  Returns the new slab
and the allocated slot. -/
def mempool_alloc (w : WorkerState) : WorkerState × Nat :=
  match w.slots.findIdx? (fun s => s.isNone) with
  | some i => (⟨w.slots.set i (some default)⟩, i)
  | none => (⟨w.slots ++ [some default]⟩, w.slots.length)

/-- Observable side effects of the engine, in program order. -/
inductive Action where
  | createWorker (idx : Nat)
  | workerAlive (idx : Nat)
  | epollAdd (fd : Int)
  | epollMod (fd : Int)
  | epollDel (fd : Int)
  | closeFd (fd : Int)
  | urlFree (slot : Nat)
  | freeSlot (slot : Nat)
  | writeState (slot : Nat) (v : Nat)
  | sendTo (fd : Int) (bytes : List Char)
  deriving DecidableEq, Repr

/-- Returns `true` exactly on a socket write (`Action.sendTo`). -/
def Action.isSend : Action → Bool
  | Action.sendTo _ _ => true
  | _ => false

/-- Result of a worker routine: normal completion with the new slab and
the action trace, or `abort()` (nothing runs after the recorded trace). -/
inductive ExecResult where
  | ok (w : WorkerState) (acts : List Action)
  | aborted (acts : List Action)
  deriving DecidableEq, Repr

/-- Returns `true` iff the routine called `abort()`. -/
def ExecResult.isAborted : ExecResult → Bool
  | ExecResult.aborted _ => true
  | _ => false

/-- Action trace of an `ExecResult`. -/
def ExecResult.acts : ExecResult → List Action
  | ExecResult.ok _ a => a
  | ExecResult.aborted a => a

/-- Slab after a routine that completed normally (the given slab if the
routine aborted the process instead). -/
def ExecResult.post (w0 : WorkerState) : ExecResult → WorkerState
  | ExecResult.ok w _ => w
  | ExecResult.aborted _ => w0

/-- Handler `_worker_client_state_header` (`holytunnel.c:375`): the handler body
in this revision is `return _CLIENT_STATE_STOP;`. -/
def _worker_client_state_header (w : WorkerState) (c : Client) : Nat :=
  _CLIENT_STATE_STOP

/-- Handler `_worker_client_state_resolver` (`holytunnel.c:389`): stub,
`return _CLIENT_STATE_STOP;`. -/
def _worker_client_state_resolver (w : WorkerState) (c : Client) : Nat :=
  _CLIENT_STATE_STOP

/-- Handler `_worker_client_state_connect` (`holytunnel.c:396`): stub,
`return _CLIENT_STATE_STOP;`. -/
def _worker_client_state_connect (w : WorkerState) (c : Client) : Nat :=
  _CLIENT_STATE_STOP

/-- Handler `_worker_client_state_response` (`holytunnel.c:403`): stub,
`return _CLIENT_STATE_STOP;`. -/
def _worker_client_state_response (w : WorkerState) (c : Client) : Nat :=
  _CLIENT_STATE_STOP

/-- Handler `_worker_client_state_forward_header` (`holytunnel.c:410`): stub,
`return _CLIENT_STATE_STOP;`. -/
def _worker_client_state_forward_header (w : WorkerState) (c : Client) : Nat :=
  _CLIENT_STATE_STOP

/-- Handler `_worker_client_state_forward_all` (`holytunnel.c:417`): the handler
body in this revision is `return _CLIENT_STATE_STOP;` — it reads no
bytes and writes none to the peer. -/
def _worker_client_state_forward_all (w : WorkerState) (c : Client) : Nat :=
  _CLIENT_STATE_STOP

/-- Routine `_worker_client_del` (`holytunnel.c:343-372`).  If the departing
client has a peer: widen the peer's interest to `EPOLLIN | EPOLLOUT`,
`epoll_ctl(MOD)` it (`abort()` on failure), then set the peer's state to
STOP and null its `peer` link.  Then `epoll_ctl(DEL)` the departing fd
(`abort()` on failure), `close` it, `url_free` and `mempool_free` the
record. `modOk`/`delOk` are the two epoll results. -/
def _worker_client_del (w : WorkerState) (i : Nat) (modOk delOk : Bool) : ExecResult :=
  match getSlot w i with
  | none => ExecResult.ok w []
  | some c =>
    let core := fun (w0 : WorkerState) (pre : List Action) =>
      if delOk then
        ExecResult.ok (mempool_free w0 i)
          (pre ++ [Action.epollDel c.src_fd, Action.closeFd c.src_fd,
                   Action.urlFree i, Action.freeSlot i])
      else ExecResult.aborted (pre ++ [Action.epollDel c.src_fd])
    match c.peer with
    | none => core w []
    | some p =>
      let pfd := ((getSlot w p).map Client.src_fd).getD 0
      let w1 := updateSlot w p (fun pc => { pc with events := EPOLLIN ||| EPOLLOUT })
      if modOk then
        let w2 := updateSlot w1 p
          (fun pc => { pc with state := _CLIENT_STATE_STOP, peer := none })
        core w2 [Action.epollMod pfd]
      else ExecResult.aborted [Action.epollMod pfd]

/-- Dispatcher `_worker_handle_client_state` (`holytunnel.c:274-306`): read
`client->state`, run the matching handler (states with no `case`, STOP
included, leave `state` unchanged), call `_worker_client_del` when the
result is STOP, and finally execute `client->state = state` — in the
STOP case this store happens after the slot was freed, which the trace
records as a `writeState` action after the `freeSlot` action. -/
def _worker_handle_client_state (w : WorkerState) (i : Nat) (modOk delOk : Bool) :
    ExecResult :=
  match getSlot w i with
  | none => ExecResult.ok w []
  | some c =>
    let state :=
      if c.state = _CLIENT_STATE_HEADER then _worker_client_state_header w c
      else if c.state = _CLIENT_STATE_RESOLVER then _worker_client_state_resolver w c
      else if c.state = _CLIENT_STATE_CONNECT then _worker_client_state_connect w c
      else if c.state = _CLIENT_STATE_RESPONSE then _worker_client_state_response w c
      else if c.state = _CLIENT_STATE_FORWARD_HEADER then
        _worker_client_state_forward_header w c
      else if c.state = _CLIENT_STATE_FORWARD_ALL then
        _worker_client_state_forward_all w c
      else c.state
    if state = _CLIENT_STATE_STOP then
      match _worker_client_del w i modOk delOk with
      | ExecResult.ok w1 acts =>
        ExecResult.ok (updateSlot w1 i (fun cc => { cc with state := state }))
          (acts ++ [Action.writeState i state])
      | ExecResult.aborted acts => ExecResult.aborted acts
    else
      ExecResult.ok (updateSlot w i (fun cc => { cc with state := state }))
        [Action.writeState i state]

/-- Routine `_worker_client_add` (`holytunnel.c:309-340`): `mempool_alloc` a
record (`allocOk = false` is a NULL return → fail), set its interest to
`EPOLLIN`, `epoll_ctl(ADD)` the source fd (`addOk`); on failure
`mempool_free` the record and return -1; on success initialize the
fields and return 0. -/
def _worker_client_add (w : WorkerState) (src_fd trg_fd : Int) (state : Nat)
    (peer : Option Nat) (allocOk addOk : Bool) : WorkerState × List Action × Int :=
  if allocOk then
    let ar := mempool_alloc w
    let w2 := updateSlot ar.1 ar.2 (fun c => { c with events := EPOLLIN })
    if addOk then
      (updateSlot w2 ar.2 (fun c =>
        { c with type := _CLIENT_TYPE_HTTP, state := state, src_fd := src_fd,
                 trg_fd := trg_fd, sent := 0, recvd := 0, peer := peer }),
       [Action.epollAdd src_fd], 0)
    else
      (mempool_free w2 ar.2, [Action.epollAdd src_fd], -1)
  else (w, [], -1)

/-- The Server fields the accept path touches (`struct server`,
`holytunnel.c:98-106`): the round-robin cursor `workers_curr`, the pool
size `workers_len`, and the workers' slabs. -/
structure ServerState where
  workers_curr : Nat
  workers_len : Nat
  workers : List WorkerState
  deriving DecidableEq, Repr

/-- Routine `_server_event_handle_listener` (`holytunnel.c:615-633`): `accept`
(a negative `fd` is an accept failure → return), call
`_worker_client_add(&workers[workers_curr], fd, -1, HEADER, NULL)`; on
failure `close(fd)` and return with the cursor untouched; on success
advance `workers_curr = (curr + 1) % workers_len`.  The third component
is the index of the worker the connection was assigned to, if any. -/
def _server_event_handle_listener (s : ServerState) (fd : Int) (allocOk addOk : Bool) :
    ServerState × List Action × Option Nat :=
  if fd < 0 then (s, [], none)
  else
    let curr := s.workers_curr
    let wk := s.workers.getD curr ⟨[]⟩
    let r := _worker_client_add wk fd (-1) _CLIENT_STATE_HEADER none allocOk addOk
    if r.2.2 < 0 then
      ({ s with workers := s.workers.set curr r.1 },
       r.2.1 ++ [Action.closeFd fd], none)
    else
      ({ s with workers := s.workers.set curr r.1,
                workers_curr := (curr + 1) % s.workers_len },
       r.2.1, some curr)

/-- A run of consecutive accepted connections: one
`_server_event_handle_listener` call per accepted fd, with every
`mempool_alloc` and `epoll_ctl(ADD)` succeeding.  Returns the final
server state and the list of worker indices assigned, in order. -/
def _server_accept_run (s : ServerState) : List Int → ServerState × List Nat
  | [] => (s, [])
  | fd :: fds =>
    let r := _server_event_handle_listener s fd true true
    let rest := _server_accept_run r.1 fds
    (rest.1, (match r.2.2 with | some a => [a] | none => []) ++ rest.2)

/-- The aliveness-wait loop of `_server_create_workers`
(`holytunnel.c:533-540`): `for (j = 0; j < n;) { if (is_alive[j]) j++;
usleep(10000); }`.  `alive t j` is the value the poll at time `t` reads
from worker `j`'s atomic `is_alive` flag; `fuel` bounds how many polls
we unroll (the C loop itself has no bound).  Emits `workerAlive j` when
the poll observes worker `j` alive; the Bool is `true` iff the loop
finished within `fuel` polls. -/
def _server_wait_workers (alive : Nat → Nat → Bool) (n : Nat) :
    Nat → Nat → Nat → List Action × Bool
  | 0, _, j => if n ≤ j then ([], true) else ([], false)
  | fuel + 1, t, j =>
    if n ≤ j then ([], true)
    else if alive t j then
      let r := _server_wait_workers alive n fuel (t + 1) (j + 1)
      (Action.workerAlive j :: r.1, r.2)
    else _server_wait_workers alive n fuel (t + 1) j

/-- Routine `_server_create_workers` (`holytunnel.c:505-551`), success path: the
first loop creates all `n` workers (`_worker_create` for `i = 0 .. n-1`),
and only then the second loop polls each worker in index order until it
reports itself alive. -/
def _server_create_workers (alive : Nat → Nat → Bool) (n fuel : Nat) :
    List Action × Bool :=
  let creates := (List.range n).map Action.createWorker
  let wr := _server_wait_workers alive n fuel 0 0
  (creates ++ wr.1, wr.2)

/-- Does `l` start with `pat`? -/
def startsWith : List Char → List Char → Bool
  | [], _ => true
  | _ :: _, [] => false
  | p :: ps, c :: cs => p = c && startsWith ps cs

/-- Does `l` contain `pat` as a contiguous run? -/
def containsSeq (pat : List Char) : List Char → Bool
  | [] => startsWith pat []
  | c :: cs => startsWith pat (c :: cs) || containsSeq pat cs

/-- Modelled from the spec: the external Request Parser
(`parse(buffer) -> {method, target-authority, header-block} | incomplete
| malformed`, spec section 6) is not part of `src/`.  Per the spec, a
buffer holds a complete, valid request when the header block is
terminated by an empty line (CRLF CRLF) and the request line consists of
the three fields method, target and version. -/
def spec_request_complete_valid (buf : List Char) : Bool :=
  let crlfcrlf := [Char.ofNat 13, Char.ofNat 10, Char.ofNat 13, Char.ofNat 10]
  let line := buf.takeWhile (fun c => c ≠ Char.ofNat 13)
  let fields := (line.splitOn (Char.ofNat 32)).filter (fun f => f ≠ [])
  containsSeq crlfcrlf buf && fields.length = 3

/-- Mutual-peer check for one slot: if slot `j` is live and has a peer
pointer `p`, then slot `p` is live and points back at `j` (spec section
3 invariant `a.peer.peer == a`). -/
def slotPeerOk (w : WorkerState) (j : Nat) : Bool :=
  match getSlot w j with
  | none => true
  | some cj =>
    match cj.peer with
    | none => true
    | some p =>
      match getSlot w p with
      | none => false
      | some cp => cp.peer = some j

/-- The mutual-peer invariant over the whole slab. -/
def peersMutual (w : WorkerState) : Bool :=
  (List.range w.slots.length).all (slotPeerOk w)

/-- The request `"CONNECT example.com:443 HTTP/1.1\r\nHost: example.com\r\n\r\n"`,
the complete tunnel-establishment request of spec section 8. -/
def reqConnect : List Char :=
  ("CONNECT example.com:443 HTTP/1.1" ++ "\r\n" ++ "Host: example.com"
   ++ "\r\n" ++ "\r\n").data

/-- A freshly accepted client: HEADER state, no peer, buffer holding a
complete, valid request. -/
def headerClient : Client :=
  { type := _CLIENT_TYPE_HTTP, state := _CLIENT_STATE_HEADER, src_fd := 7,
    trg_fd := -1, events := EPOLLIN, peer := none, sent := 0, recvd := 0,
    buffer := reqConnect }

/-- A one-slot worker owning `headerClient`. -/
def headerWorker : WorkerState := ⟨[some headerClient]⟩

/-- Inbound half of an established tunnel pair (slot 0, peer slot 1). -/
def fwdA : Client :=
  { type := _CLIENT_TYPE_HTTPS, state := _CLIENT_STATE_FORWARD_ALL, src_fd := 7,
    trg_fd := -1, events := EPOLLIN, peer := some 1, sent := 0, recvd := 0,
    buffer := ['h', 'i'] }

/-- Outbound half of the tunnel pair (slot 1, peer slot 0). -/
def fwdB : Client :=
  { type := _CLIENT_TYPE_HTTPS, state := _CLIENT_STATE_FORWARD_ALL, src_fd := 8,
    trg_fd := -1, events := EPOLLIN, peer := some 0, sent := 0, recvd := 0,
    buffer := ['o', 'k'] }

/-- A two-slot worker owning the established pair `fwdA` / `fwdB`. -/
def pairWorker : WorkerState := ⟨[some fwdA, some fwdB]⟩

/-
Theorems.
-/

theorem getSlot_lt {w : WorkerState} {i : Nat} {c : Client}
    (hi : getSlot w i = some c) : i < w.slots.length := by
  unfold getSlot at hi
  rcases h : w.slots[i]? with _ | x
  · rw [h] at hi; simp [Option.join] at hi
  · exact (List.getElem?_eq_some_iff.mp h).1

theorem getSlot_updateSlot_self {w : WorkerState} {i : Nat} {f : Client → Client} :
    getSlot (updateSlot w i f) i = (getSlot w i).map f := by
  by_cases h : i < w.slots.length
  · simp [updateSlot, getSlot, List.getElem?_set_self h]
  · have hnone : w.slots[i]? = none := List.getElem?_eq_none (Nat.le_of_not_lt h)
    simp [updateSlot, getSlot, List.set_eq_of_length_le (Nat.le_of_not_lt h), hnone]

theorem getSlot_updateSlot_ne {w : WorkerState} {i j : Nat} {f : Client → Client}
    (h : i ≠ j) : getSlot (updateSlot w i f) j = getSlot w j := by
  simp [updateSlot, getSlot, List.getElem?_set_ne h]

theorem getSlot_mempool_free_self {w : WorkerState} {i : Nat} :
    getSlot (mempool_free w i) i = none := by
  by_cases h : i < w.slots.length
  · simp [mempool_free, getSlot, List.getElem?_set_self h]
  · have hnone : w.slots[i]? = none := List.getElem?_eq_none (Nat.le_of_not_lt h)
    simp [mempool_free, getSlot, List.set_eq_of_length_le (Nat.le_of_not_lt h), hnone]

theorem getSlot_mempool_free_ne {w : WorkerState} {i j : Nat} (h : i ≠ j) :
    getSlot (mempool_free w i) j = getSlot w j := by
  simp [mempool_free, getSlot, List.getElem?_set_ne h]

theorem updateSlot_mempool_free_self {w : WorkerState} {i : Nat} {f : Client → Client} :
    updateSlot (mempool_free w i) i f = mempool_free w i := by
  unfold updateSlot
  rw [getSlot_mempool_free_self]
  simp [mempool_free, List.set_set]

/-- Claim C1 counterexample: the client of `headerWorker` is in HEADER
state with a buffer holding the complete, valid CONNECT request of spec
section 8, yet the HEADER-state handler returns STOP, not RESOLVER. -/
theorem header_valid_request_returns_stop_cex :
    spec_request_complete_valid headerClient.buffer = true ∧
    headerClient.state = _CLIENT_STATE_HEADER ∧
    _worker_client_state_header headerWorker headerClient = _CLIENT_STATE_STOP ∧
    _worker_client_state_header headerWorker headerClient ≠ _CLIENT_STATE_RESOLVER := by
  exact ⟨by decide, rfl, rfl, by decide⟩

/-- Claim C1 (amended): in this revision `_worker_client_state_header`
is an unimplemented stub.  For every HEADER-state client with no peer —
whatever its buffer holds, a complete valid request included — the
handler returns STOP (never RESOLVER), and the dispatcher consequently
deregisters, closes and frees the record. -/
theorem header_handler_always_stops
    (w : WorkerState) (i : Nat) (c : Client)
    (hi : getSlot w i = some c) (hs : c.state = _CLIENT_STATE_HEADER)
    (hp : c.peer = none) :
    _worker_client_state_header w c = _CLIENT_STATE_STOP ∧
    _worker_handle_client_state w i true true =
      ExecResult.ok (mempool_free w i)
        [Action.epollDel c.src_fd, Action.closeFd c.src_fd,
         Action.urlFree i, Action.freeSlot i,
         Action.writeState i _CLIENT_STATE_STOP] := by
  refine ⟨rfl, ?_⟩
  simp only [_worker_handle_client_state, hi, hs, _worker_client_state_header,
    _worker_client_del, hp, _CLIENT_STATE_HEADER, _CLIENT_STATE_RESOLVER,
    _CLIENT_STATE_CONNECT, _CLIENT_STATE_RESPONSE, _CLIENT_STATE_FORWARD_HEADER,
    _CLIENT_STATE_FORWARD_ALL, _CLIENT_STATE_STOP]
  simp [updateSlot_mempool_free_self]

/-- Claim C1 witness: the amended theorem applied to `headerWorker`. -/
theorem header_handler_always_stops_witness :
    _worker_client_state_header headerWorker headerClient = _CLIENT_STATE_STOP ∧
    _worker_handle_client_state headerWorker 0 true true =
      ExecResult.ok (mempool_free headerWorker 0)
        [Action.epollDel headerClient.src_fd, Action.closeFd headerClient.src_fd,
         Action.urlFree 0, Action.freeSlot 0, Action.writeState 0 _CLIENT_STATE_STOP] :=
  header_handler_always_stops headerWorker 0 headerClient (by decide) (by decide) (by decide)

/-- Claim C2 counterexample: both halves of `pairWorker` are in
FORWARD_ALL with neither side having seen EOF or an error, yet the
FORWARD_ALL handler returns STOP instead of staying in FORWARD_ALL, and
dispatching the inbound half writes no bytes to the peer's socket. -/
theorem forward_all_returns_stop_cex :
    fwdA.state = _CLIENT_STATE_FORWARD_ALL ∧
    fwdB.state = _CLIENT_STATE_FORWARD_ALL ∧
    _worker_client_state_forward_all pairWorker fwdA = _CLIENT_STATE_STOP ∧
    _worker_client_state_forward_all pairWorker fwdA ≠ _CLIENT_STATE_FORWARD_ALL ∧
    (_worker_handle_client_state pairWorker 0 true true).acts.all
      (fun a => !a.isSend) = true := by
  decide

/-- Claim C2 (amended): in this revision `_worker_client_state_forward_all`
is an unimplemented stub: for every FORWARD_ALL client of an established
tunnel pair it returns STOP — regardless of the bytes available on
either side — and its dispatch performs no socket write at all (no byte
is relayed to the peer); the client is deleted instead. -/
theorem forward_all_stub_no_relay
    (w : WorkerState) (i p : Nat) (c pc : Client)
    (hi : getSlot w i = some c) (hs : c.state = _CLIENT_STATE_FORWARD_ALL)
    (hp : c.peer = some p) (hpc : getSlot w p = some pc) (hpi : p ≠ i) :
    _worker_client_state_forward_all w c = _CLIENT_STATE_STOP ∧
    ∃ w1, _worker_handle_client_state w i true true =
        ExecResult.ok w1
          [Action.epollMod pc.src_fd, Action.epollDel c.src_fd,
           Action.closeFd c.src_fd, Action.urlFree i, Action.freeSlot i,
           Action.writeState i _CLIENT_STATE_STOP] ∧
      ([Action.epollMod pc.src_fd, Action.epollDel c.src_fd,
        Action.closeFd c.src_fd, Action.urlFree i, Action.freeSlot i,
        Action.writeState i _CLIENT_STATE_STOP].all fun a => !a.isSend) = true ∧
      getSlot w1 i = none := by
  refine ⟨rfl, ?_⟩
  simp only [_worker_handle_client_state, hi, hs, _worker_client_state_forward_all,
    _worker_client_del, hp, hpc, _CLIENT_STATE_HEADER, _CLIENT_STATE_RESOLVER,
    _CLIENT_STATE_CONNECT, _CLIENT_STATE_RESPONSE, _CLIENT_STATE_FORWARD_HEADER,
    _CLIENT_STATE_FORWARD_ALL, _CLIENT_STATE_STOP]
  simp [Action.isSend]
  rw [updateSlot_mempool_free_self]
  exact getSlot_mempool_free_self

/-- Claim C2 witness: the amended theorem applied to the concrete pair
`pairWorker`. -/
theorem forward_all_stub_no_relay_witness :
    _worker_client_state_forward_all pairWorker fwdA = _CLIENT_STATE_STOP ∧
    ∃ w1, _worker_handle_client_state pairWorker 0 true true =
        ExecResult.ok w1
          [Action.epollMod fwdB.src_fd, Action.epollDel fwdA.src_fd,
           Action.closeFd fwdA.src_fd, Action.urlFree 0, Action.freeSlot 0,
           Action.writeState 0 _CLIENT_STATE_STOP] ∧
      ([Action.epollMod fwdB.src_fd, Action.epollDel fwdA.src_fd,
        Action.closeFd fwdA.src_fd, Action.urlFree 0, Action.freeSlot 0,
        Action.writeState 0 _CLIENT_STATE_STOP].all fun a => !a.isSend) = true ∧
      getSlot w1 0 = none :=
  forward_all_stub_no_relay pairWorker 0 1 fwdA fwdB (by decide) (by decide)
    (by decide) (by decide) (by decide)

theorem peersMutual_spec {w : WorkerState} (hm : peersMutual w = true)
    {j p : Nat} {cj : Client} (hj : getSlot w j = some cj) (hp : cj.peer = some p) :
    ∃ cp, getSlot w p = some cp ∧ cp.peer = some j := by
  have hlt : j < w.slots.length := getSlot_lt hj
  have hok : slotPeerOk w j = true :=
    List.all_eq_true.mp hm j (List.mem_range.mpr hlt)
  simp only [slotPeerOk, hj, hp] at hok
  rcases h : getSlot w p with _ | cp
  · rw [h] at hok; simp at hok
  · rw [h] at hok
    simp at hok
    exact ⟨cp, rfl, hok⟩

/-- Claim C3: `_worker_client_del` on a record with a live peer first
widens the partner's readiness interest and nulls the partner's `peer`
field, and only afterwards deregisters (`epoll_ctl(DEL)`), closes and
frees the departing record — the trace order shows the `epoll_ctl(MOD)`
of the partner before the deregistration/close/free of the departing
slot.  Consequently, under the mutual-peer invariant, no surviving
record holds a peer pointer to the freed slot. -/
theorem client_del_no_dangling_peer
    (w : WorkerState) (i p : Nat) (c pc : Client)
    (hm : peersMutual w = true)
    (hi : getSlot w i = some c) (hp : c.peer = some p)
    (hpc : getSlot w p = some pc) (hpi : p ≠ i) :
    ∃ w1, _worker_client_del w i true true =
        ExecResult.ok w1
          [Action.epollMod pc.src_fd, Action.epollDel c.src_fd,
           Action.closeFd c.src_fd, Action.urlFree i, Action.freeSlot i] ∧
      getSlot w1 p = some { pc with events := EPOLLIN ||| EPOLLOUT,
                                    state := _CLIENT_STATE_STOP, peer := none } ∧
      getSlot w1 i = none ∧
      ∀ j cj, getSlot w1 j = some cj → cj.peer ≠ some i := by
  have hdel : _worker_client_del w i true true =
      ExecResult.ok (mempool_free (updateSlot (updateSlot w p
          (fun x => { x with events := EPOLLIN ||| EPOLLOUT })) p
          (fun x => { x with state := _CLIENT_STATE_STOP, peer := none })) i)
        [Action.epollMod pc.src_fd, Action.epollDel c.src_fd,
         Action.closeFd c.src_fd, Action.urlFree i, Action.freeSlot i] := by
    simp [_worker_client_del, hi, hp, hpc]
  refine ⟨_, hdel, ?_, getSlot_mempool_free_self, ?_⟩
  · rw [getSlot_mempool_free_ne (Ne.symm hpi), getSlot_updateSlot_self,
      getSlot_updateSlot_self, hpc]
    rfl
  · intro j cj hj
    by_cases hji : j = i
    · subst hji
      rw [getSlot_mempool_free_self] at hj
      exact absurd hj (by simp)
    · rw [getSlot_mempool_free_ne (fun h => hji h.symm)] at hj
      by_cases hjp : j = p
      · subst hjp
        rw [getSlot_updateSlot_self, getSlot_updateSlot_self, hpc] at hj
        simp only [Option.map] at hj
        cases hj
        simp
      · rw [getSlot_updateSlot_ne (fun h => hjp h.symm),
          getSlot_updateSlot_ne (fun h => hjp h.symm)] at hj
        intro hpeer
        obtain ⟨ci, hci, hback⟩ := peersMutual_spec hm hj hpeer
        rw [hi] at hci
        cases hci
        rw [hp] at hback
        exact hjp (Option.some.inj hback).symm

/-- Claim C3 witness: the theorem applied to the concrete tunnel pair
`pairWorker`, deleting the inbound half (slot 0). -/
theorem client_del_no_dangling_peer_witness :
    ∃ w1, _worker_client_del pairWorker 0 true true =
        ExecResult.ok w1
          [Action.epollMod fwdB.src_fd, Action.epollDel fwdA.src_fd,
           Action.closeFd fwdA.src_fd, Action.urlFree 0, Action.freeSlot 0] ∧
      getSlot w1 1 = some { fwdB with events := EPOLLIN ||| EPOLLOUT,
                                      state := _CLIENT_STATE_STOP, peer := none } ∧
      getSlot w1 0 = none ∧
      ∀ j cj, getSlot w1 j = some cj → cj.peer ≠ some 0 :=
  client_del_no_dangling_peer pairWorker 0 1 fwdA fwdB (by decide) (by decide)
    (by decide) (by decide) (by decide)

/-- Claim C4 (code-bug evidence): dispatching `headerWorker`'s client —
whose handler returns STOP — runs `_worker_client_del`, which frees the
slab slot, and the dispatcher afterwards still executes the
`client->state = state` store into that record: in the trace, the
`writeState` on slot 0 comes strictly after `freeSlot 0`. -/
theorem handle_client_state_write_after_free :
    (_worker_handle_client_state headerWorker 0 true true).acts =
      [Action.epollDel 7, Action.closeFd 7, Action.urlFree 0, Action.freeSlot 0,
       Action.writeState 0 _CLIENT_STATE_STOP] ∧
    (_worker_handle_client_state headerWorker 0 true true).acts.indexOf
        (Action.freeSlot 0) <
      (_worker_handle_client_state headerWorker 0 true true).acts.indexOf
        (Action.writeState 0 _CLIENT_STATE_STOP) := by
  decide

theorem handle_stop_no_peer (w : WorkerState) (i : Nat) (c : Client)
    (hi : getSlot w i = some c) (hs : c.state = _CLIENT_STATE_STOP)
    (hp : c.peer = none) :
    _worker_handle_client_state w i true true =
      ExecResult.ok (mempool_free w i)
        [Action.epollDel c.src_fd, Action.closeFd c.src_fd, Action.urlFree i,
         Action.freeSlot i, Action.writeState i _CLIENT_STATE_STOP] := by
  simp only [_worker_handle_client_state, hi, hs, _worker_client_del, hp,
    _CLIENT_STATE_HEADER, _CLIENT_STATE_RESOLVER, _CLIENT_STATE_CONNECT,
    _CLIENT_STATE_RESPONSE, _CLIENT_STATE_FORWARD_HEADER,
    _CLIENT_STATE_FORWARD_ALL, _CLIENT_STATE_STOP]
  simp [updateSlot_mempool_free_self]

/-- Claim C5 counterexample: deleting the inbound half of the concrete
pair `pairWorker` sets the surviving half's state directly to STOP — it
reaches STOP with no dispatch in between and nothing is written to its
socket — and its next readiness event runs no handler and flushes no
bytes either: the survivor is simply torn down. -/
theorem peer_del_no_flush_cex :
    (getSlot ((_worker_client_del pairWorker 0 true true).post pairWorker) 1).map
        Client.state = some _CLIENT_STATE_STOP ∧
    (_worker_client_del pairWorker 0 true true).acts.all
      (fun a => !a.isSend) = true ∧
    (_worker_handle_client_state
        ((_worker_client_del pairWorker 0 true true).post pairWorker) 1 true
        true).acts.all (fun a => !a.isSend) = true ∧
    getSlot
      ((_worker_handle_client_state
          ((_worker_client_del pairWorker 0 true true).post pairWorker) 1 true
          true).post ((_worker_client_del pairWorker 0 true true).post pairWorker))
      1 = none := by
  decide

/-- Claim C5 (amended): when one half of a tunnel pair is deleted, the
surviving half's readiness interest is widened to `EPOLLIN | EPOLLOUT`
but its state is set directly to STOP inside the same
`_worker_client_del` call; no flush of pending output ever happens — the
deletion itself writes nothing to the survivor's socket, and the
survivor's next readiness event runs no state handler, writes no bytes,
and frees the record. -/
theorem client_del_peer_no_flush
    (w : WorkerState) (i p : Nat) (c pc : Client)
    (hi : getSlot w i = some c) (hp : c.peer = some p)
    (hpc : getSlot w p = some pc) (hpi : p ≠ i) :
    ∃ w1, _worker_client_del w i true true =
        ExecResult.ok w1
          [Action.epollMod pc.src_fd, Action.epollDel c.src_fd,
           Action.closeFd c.src_fd, Action.urlFree i, Action.freeSlot i] ∧
      (getSlot w1 p).map Client.state = some _CLIENT_STATE_STOP ∧
      (getSlot w1 p).map Client.events = some (EPOLLIN ||| EPOLLOUT) ∧
      (_worker_client_del w i true true).acts.all (fun a => !a.isSend) = true ∧
      (_worker_handle_client_state w1 p true true).acts.all
        (fun a => !a.isSend) = true ∧
      getSlot ((_worker_handle_client_state w1 p true true).post w1) p = none := by
  have hdel : _worker_client_del w i true true =
      ExecResult.ok (mempool_free (updateSlot (updateSlot w p
          (fun x => { x with events := EPOLLIN ||| EPOLLOUT })) p
          (fun x => { x with state := _CLIENT_STATE_STOP, peer := none })) i)
        [Action.epollMod pc.src_fd, Action.epollDel c.src_fd,
         Action.closeFd c.src_fd, Action.urlFree i, Action.freeSlot i] := by
    simp [_worker_client_del, hi, hp, hpc]
  have hslot : getSlot (mempool_free (updateSlot (updateSlot w p
      (fun x => { x with events := EPOLLIN ||| EPOLLOUT })) p
      (fun x => { x with state := _CLIENT_STATE_STOP, peer := none })) i) p =
      some { pc with events := EPOLLIN ||| EPOLLOUT,
                     state := _CLIENT_STATE_STOP, peer := none } := by
    rw [getSlot_mempool_free_ne (Ne.symm hpi), getSlot_updateSlot_self,
      getSlot_updateSlot_self, hpc]
    rfl
  have hdisp := handle_stop_no_peer _ p
    { pc with events := EPOLLIN ||| EPOLLOUT, state := _CLIENT_STATE_STOP,
              peer := none } hslot rfl rfl
  refine ⟨_, hdel, ?_, ?_, ?_, ?_, ?_⟩
  · rw [hslot]; rfl
  · rw [hslot]; rfl
  · rw [hdel]; rfl
  · rw [hdisp]; rfl
  · rw [hdisp]
    simp only [ExecResult.post]
    exact getSlot_mempool_free_self

/-- Claim C5 witness: the amended theorem applied to the concrete pair
`pairWorker`, deleting slot 0. -/
theorem client_del_peer_no_flush_witness :
    ∃ w1, _worker_client_del pairWorker 0 true true =
        ExecResult.ok w1
          [Action.epollMod fwdB.src_fd, Action.epollDel fwdA.src_fd,
           Action.closeFd fwdA.src_fd, Action.urlFree 0, Action.freeSlot 0] ∧
      (getSlot w1 1).map Client.state = some _CLIENT_STATE_STOP ∧
      (getSlot w1 1).map Client.events = some (EPOLLIN ||| EPOLLOUT) ∧
      (_worker_client_del pairWorker 0 true true).acts.all
        (fun a => !a.isSend) = true ∧
      (_worker_handle_client_state w1 1 true true).acts.all
        (fun a => !a.isSend) = true ∧
      getSlot ((_worker_handle_client_state w1 1 true true).post w1) 1 = none :=
  client_del_peer_no_flush pairWorker 0 1 fwdA fwdB (by decide) (by decide)
    (by decide) (by decide)

/-- Claim C6: during `_worker_client_del`, if the `epoll_ctl(MOD)` of
the peer's descriptor fails (when a peer exists) or the
`epoll_ctl(DEL)` of the departing descriptor fails, the routine calls
`abort()` — the process is terminated rather than continuing. -/
theorem client_del_aborts_on_epoll_failure
    (w : WorkerState) (i : Nat) (c : Client) (modOk delOk : Bool)
    (hi : getSlot w i = some c)
    (hfail : (c.peer.isSome = true ∧ modOk = false) ∨ delOk = false) :
    (_worker_client_del w i modOk delOk).isAborted = true := by
  rcases hfail with ⟨hps, hm⟩ | hd
  · subst hm
    rcases hpeer : c.peer with _ | p
    · rw [hpeer] at hps; simp at hps
    · simp [_worker_client_del, hi, hpeer, ExecResult.isAborted]
  · subst hd
    rcases hpeer : c.peer with _ | p
    · simp [_worker_client_del, hi, hpeer, ExecResult.isAborted]
    · rcases modOk with _ | _ <;>
        simp [_worker_client_del, hi, hpeer, ExecResult.isAborted]

/-- Claim C6 witness: the theorem applied to `pairWorker` with the
peer-modification epoll call failing, and to `headerWorker` with the
deregistration epoll call failing. -/
theorem client_del_aborts_on_epoll_failure_witness :
    (_worker_client_del pairWorker 0 false true).isAborted = true ∧
    (_worker_client_del headerWorker 0 true false).isAborted = true :=
  ⟨client_del_aborts_on_epoll_failure pairWorker 0 fwdA false true (by decide)
      (Or.inl ⟨by decide, rfl⟩),
   client_del_aborts_on_epoll_failure headerWorker 0 headerClient true false
      (by decide) (Or.inr rfl)⟩

theorem mempool_alloc_spec (w : WorkerState) :
    getSlot w (mempool_alloc w).2 = none ∧
    ∀ j, j ≠ (mempool_alloc w).2 → getSlot (mempool_alloc w).1 j = getSlot w j := by
  unfold mempool_alloc
  rcases h : w.slots.findIdx? (fun s => s.isNone) with _ | i
  · simp only [h]
    constructor
    · exact (by simp [getSlot] : getSlot w w.slots.length = none)
    · intro j hj
      by_cases hlt : j < w.slots.length
      · simp [getSlot, List.getElem?_append_left hlt]
      · have h1 : w.slots[j]? = none := List.getElem?_eq_none (Nat.le_of_not_lt hlt)
        have h2 : (w.slots ++ [some (default : Client)])[j]? = none := by
          apply List.getElem?_eq_none
          simp only [List.length_append, List.length_cons, List.length_nil]
          omega
        simp [getSlot, h1, h2]
  · obtain ⟨hlt, hpi, _⟩ := List.findIdx?_eq_some_iff_getElem.mp h
    simp only [h]
    constructor
    · have : w.slots[i]? = some w.slots[i] := List.getElem?_eq_getElem hlt
      rw [getSlot, this]
      rcases hv : w.slots[i] with _ | c
      · rfl
      · rw [hv] at hpi; simp at hpi
    · intro j hj
      simp [getSlot, List.getElem?_set_ne (Ne.symm hj)]

/-- Claim C7: when `epoll_ctl(ADD)` fails in `_worker_client_add`, the
just-allocated slab record is freed again, the call returns -1, and
every slab slot reads as it did before the call; the caller
`_server_event_handle_listener` then closes the accepted socket and
assigns the connection to no worker. -/
theorem client_add_failure_releases_slot
    (w : WorkerState) (src_fd trg_fd : Int) (st : Nat) (peer : Option Nat)
    (s : ServerState) (fd : Int) (hfd : 0 ≤ fd) :
    (_worker_client_add w src_fd trg_fd st peer true false).2.2 = -1 ∧
    (∀ j, getSlot (_worker_client_add w src_fd trg_fd st peer true false).1 j =
      getSlot w j) ∧
    Action.closeFd fd ∈ (_server_event_handle_listener s fd true false).2.1 ∧
    (_server_event_handle_listener s fd true false).2.2 = none := by
  have hadd : ∀ (w0 : WorkerState) (sf tf : Int) (st0 : Nat) (pe : Option Nat),
      (_worker_client_add w0 sf tf st0 pe true false).2.2 = -1 ∧
      ∀ j, getSlot (_worker_client_add w0 sf tf st0 pe true false).1 j =
        getSlot w0 j := by
    intro w0 sf tf st0 pe
    obtain ⟨hfree, hother⟩ := mempool_alloc_spec w0
    constructor
    · simp [_worker_client_add]
    · intro j
      simp only [_worker_client_add, if_true, Bool.false_eq_true, if_false]
      by_cases hj : j = (mempool_alloc w0).2
      · subst hj
        rw [getSlot_mempool_free_self, hfree]
      · rw [getSlot_mempool_free_ne (fun hh => hj hh.symm),
          getSlot_updateSlot_ne (fun hh => hj hh.symm), hother j hj]
  refine ⟨(hadd w src_fd trg_fd st peer).1, (hadd w src_fd trg_fd st peer).2, ?_, ?_⟩
  · have hr := (hadd (s.workers.getD s.workers_curr ⟨[]⟩) fd (-1)
      _CLIENT_STATE_HEADER none).1
    simp only [List.getD_eq_getElem?_getD] at hr
    simp [_server_event_handle_listener, not_lt.mpr hfd, hr]
  · have hr := (hadd (s.workers.getD s.workers_curr ⟨[]⟩) fd (-1)
      _CLIENT_STATE_HEADER none).1
    simp only [List.getD_eq_getElem?_getD] at hr
    simp [_server_event_handle_listener, not_lt.mpr hfd, hr]

/-- Claim C7 witness: the theorem applied to a concrete one-worker
server and the accepted descriptor 9. -/
theorem client_add_failure_releases_slot_witness :
    (_worker_client_add headerWorker 9 (-1) _CLIENT_STATE_HEADER none true
      false).2.2 = -1 ∧
    (∀ j, getSlot (_worker_client_add headerWorker 9 (-1) _CLIENT_STATE_HEADER
      none true false).1 j = getSlot headerWorker j) ∧
    Action.closeFd 9 ∈
      (_server_event_handle_listener ⟨0, 1, [headerWorker]⟩ 9 true false).2.1 ∧
    (_server_event_handle_listener ⟨0, 1, [headerWorker]⟩ 9 true false).2.2 = none :=
  client_add_failure_releases_slot headerWorker 9 (-1) _CLIENT_STATE_HEADER none
    ⟨0, 1, [headerWorker]⟩ 9 (by decide)

/-- Claim C8 counterexample: with two workers neither of which ever
reports itself alive, `_server_create_workers` still performs both
worker-creation steps — the second creation proceeds although worker 0
never reported alive (no `workerAlive 0` observation exists at all) —
and the aliveness wait does not terminate within 100 polls: the C wait
loop carries no retry bound. -/
theorem create_workers_all_before_wait_cex :
    (_server_create_workers (fun t j => false) 2 100).1 =
      [Action.createWorker 0, Action.createWorker 1] ∧
    Action.workerAlive 0 ∉ (_server_create_workers (fun t j => false) 2 100).1 ∧
    (_server_create_workers (fun t j => false) 2 100).2 = false := by
  decide

theorem wait_workers_complete
    (alive : Nat → Nat → Bool) (n T : Nat)
    (hT : ∀ t j, T ≤ t → alive t j = true) :
    ∀ fuel t j, (T - t) + (n - j) ≤ fuel →
      _server_wait_workers alive n fuel t j =
        ((List.range' j (n - j)).map Action.workerAlive, true) := by
  intro fuel
  induction fuel with
  | zero =>
    intro t j h
    have hnj : n ≤ j := by omega
    simp [_server_wait_workers, hnj, Nat.sub_eq_zero_of_le hnj]
  | succ f ih =>
    intro t j h
    by_cases hnj : n ≤ j
    · simp [_server_wait_workers, hnj, Nat.sub_eq_zero_of_le hnj]
    · push_neg at hnj
      rw [_server_wait_workers]
      rw [if_neg (not_le.mpr hnj)]
      by_cases ha : alive t j = true
      · rw [if_pos ha]
        simp only [ih (t + 1) (j + 1) (by omega)]
        have hrange : n - j = (n - (j + 1)) + 1 := by omega
        rw [hrange, List.range'_succ]
        simp
      · rw [if_neg ha]
        have ht : t < T := by
          by_contra hh
          push_neg at hh
          exact ha (hT t j hh)
        rw [ih (t + 1) j (by omega)]

/-- Claim C8 (amended): `_server_create_workers` first performs all `n`
worker-creation steps and only then waits, polling each worker in index
order (10 ms sleep per poll, no retry bound).  Provided every worker
reports itself alive from some poll `T` on, the wait terminates — within
`T + n` polls it has observed every worker alive, in index order, and
returns success. -/
theorem create_workers_wait_terminates
    (alive : Nat → Nat → Bool) (n T : Nat)
    (hT : ∀ t j, T ≤ t → alive t j = true) :
    _server_create_workers alive n (T + n) =
      ((List.range n).map Action.createWorker ++
        (List.range n).map Action.workerAlive, true) := by
  unfold _server_create_workers
  rw [wait_workers_complete alive n T hT (T + n) 0 0 (by omega)]
  simp [List.range_eq_range']

/-- Claim C8 witness: the amended theorem at `n = 2` with workers that
report alive immediately (`T = 0`). -/
theorem create_workers_wait_terminates_witness :
    _server_create_workers (fun t j => true) 2 (0 + 2) =
      ((List.range 2).map Action.createWorker ++
        (List.range 2).map Action.workerAlive, true) :=
  create_workers_wait_terminates (fun t j => true) 2 0 (fun t j h => rfl)

theorem listener_success_step (s : ServerState) (fd : Int) (hfd : 0 ≤ fd) :
    (_server_event_handle_listener s fd true true).1.workers_curr =
      (s.workers_curr + 1) % s.workers_len ∧
    (_server_event_handle_listener s fd true true).1.workers_len = s.workers_len ∧
    (_server_event_handle_listener s fd true true).2.2 = some s.workers_curr := by
  refine ⟨?_, ?_, ?_⟩ <;>
    simp [_server_event_handle_listener, _worker_client_add, not_lt.mpr hfd]

theorem accept_run_assignments (W : Nat) (hW : 0 < W) :
    ∀ (fds : List Int) (s : ServerState), s.workers_len = W →
      s.workers_curr < W → (∀ fd ∈ fds, 0 ≤ fd) →
      (_server_accept_run s fds).2 =
        (List.range fds.length).map (fun m => (s.workers_curr + m) % W) := by
  intro fds
  induction fds with
  | nil =>
    intro s hlen hc hfds
    simp [_server_accept_run]
  | cons fd fds ih =>
    intro s hlen hc hfds
    have hfd : 0 ≤ fd := hfds fd (List.mem_cons_self fd fds)
    obtain ⟨h1, h2, h3⟩ := listener_success_step s fd hfd
    have hlen1 : (_server_event_handle_listener s fd true true).1.workers_len = W := by
      rw [h2, hlen]
    have hc1 : (_server_event_handle_listener s fd true true).1.workers_curr < W := by
      rw [h1, hlen]
      exact Nat.mod_lt _ hW
    have hrec := ih (_server_event_handle_listener s fd true true).1 hlen1 hc1
      (fun f hf => hfds f (List.mem_cons_of_mem fd hf))
    simp only [_server_accept_run]
    rw [h3, hrec, h1, hlen]
    have hsplit : (List.range (fds.length + 1)).map
        (fun m => (s.workers_curr + m) % W) =
        s.workers_curr :: (List.range fds.length).map
          (fun m => ((s.workers_curr + 1) % W + m) % W) := by
      rw [List.range_succ_eq_map, List.map_cons, List.map_map]
      congr 1
      · rw [Nat.add_zero, Nat.mod_eq_of_lt hc]
      · apply List.map_congr_left
        intro m hm
        simp only [Function.comp_apply]
        rw [Nat.mod_add_mod]
        congr 1
        omega
    rw [List.length_cons, hsplit]
    simp

theorem mod_two_region (a W : Nat) (hW : 0 < W) (h : a < 2 * W) :
    a % W = if a < W then a else a - W := by
  by_cases hlt : a < W
  · rw [if_pos hlt, Nat.mod_eq_of_lt hlt]
  · rw [if_neg hlt]
    push_neg at hlt
    rw [Nat.mod_eq_sub_mod hlt]
    exact Nat.mod_eq_of_lt (by omega)

theorem count_singleton_ite (x k : Nat) :
    List.count k [x] = if x = k then 1 else 0 := by
  by_cases h : x = k <;> simp [List.count_cons, List.count_nil, h]

theorem count_round_robin (W c k : Nat) (hW : 0 < W) (hc : c < W) (hk : k < W) :
    ∀ N, ((List.range N).map (fun m => (c + m) % W)).count k =
      N / W + (if (k + W - c) % W < N % W then 1 else 0) := by
  intro N
  induction N with
  | zero => simp
  | succ N ih =>
    have hr : N % W < W := Nat.mod_lt _ hW
    have hN : W * (N / W) + N % W = N := Nat.div_add_mod N W
    have hmul : W * (N / W + 1) = W * (N / W) + W := by ring
    have hcN : (c + N) % W = (c + N % W) % W := by
      conv_lhs => rw [← hN]
      have hre : c + (W * (N / W) + N % W) = c + N % W + W * (N / W) := by ring
      rw [hre, Nat.add_mul_mod_self_left]
    have hcr : (c + N % W) % W =
        if c + N % W < W then c + N % W else c + N % W - W :=
      mod_two_region _ _ hW (by omega)
    have hd : (k + W - c) % W =
        if k + W - c < W then k + W - c else k + W - c - W :=
      mod_two_region _ _ hW (by omega)
    have hdiv1 : (N + 1) / W = if N % W + 1 < W then N / W else N / W + 1 := by
      by_cases hcase : N % W + 1 < W
      · rw [if_pos hcase]
        have hform : N + 1 = (N % W + 1) + W * (N / W) := by omega
        rw [hform, Nat.add_mul_div_left _ _ hW, Nat.div_eq_of_lt hcase, Nat.zero_add]
      · rw [if_neg hcase]
        have hform : N + 1 = W * (N / W + 1) := by omega
        rw [hform, Nat.mul_div_cancel_left _ hW]
    have hmod1 : (N + 1) % W = if N % W + 1 < W then N % W + 1 else 0 := by
      by_cases hcase : N % W + 1 < W
      · rw [if_pos hcase]
        have hform : N + 1 = (N % W + 1) + W * (N / W) := by omega
        rw [hform, Nat.add_mul_mod_self_left, Nat.mod_eq_of_lt hcase]
      · rw [if_neg hcase]
        have hform : N + 1 = W * (N / W + 1) := by omega
        rw [hform, Nat.mul_mod_right]
    rw [List.range_succ, List.map_append, List.count_append, ih, List.map_singleton,
      count_singleton_ite, hcN, hdiv1, hmod1, hcr, hd]
    split_ifs <;> omega

/-- Ceiling division written the claim's way. -/
theorem ceil_div_formula (N W : Nat) (hW : 0 < W) :
    (N + W - 1) / W = N / W + (if N % W = 0 then 0 else 1) := by
  have hr : N % W < W := Nat.mod_lt _ hW
  have hN : W * (N / W) + N % W = N := Nat.div_add_mod N W
  have hmul : W * (N / W + 1) = W * (N / W) + W := by ring
  by_cases hz : N % W = 0
  · rw [if_pos hz, Nat.add_zero]
    have hform : N + W - 1 = (W - 1) + W * (N / W) := by omega
    rw [hform, Nat.add_mul_div_left _ _ hW, Nat.div_eq_of_lt (by omega), Nat.zero_add]
  · rw [if_neg hz]
    have hform : N + W - 1 = (N % W - 1) + W * (N / W + 1) := by omega
    rw [hform, Nat.add_mul_div_left _ _ hW, Nat.div_eq_of_lt (by omega), Nat.zero_add]

/-- Claim C9: over a run of `N` consecutive accepted connections on a
healthy `W`-worker server (every `mempool_alloc` and `epoll_ctl(ADD)`
succeeding), the round-robin dispatch of
`_server_event_handle_listener` gives every worker `k` either
`⌊N/W⌋` or `⌈N/W⌉` connections. -/
theorem round_robin_balanced
    (s : ServerState) (fds : List Int) (k W : Nat)
    (hW : s.workers_len = W) (hW0 : 0 < W) (hc : s.workers_curr < W) (hk : k < W)
    (hfds : ∀ fd ∈ fds, 0 ≤ fd) :
    (_server_accept_run s fds).2.count k = fds.length / W ∨
    (_server_accept_run s fds).2.count k = (fds.length + W - 1) / W := by
  rw [accept_run_assignments W hW0 fds s hW hc hfds,
    count_round_robin W s.workers_curr k hW0 hc hk fds.length,
    ceil_div_formula fds.length W hW0]
  split_ifs <;> omega

/-- Claim C9 witness: 5 connections over 3 workers — worker 1 receives
2 = ⌈5/3⌉ connections. -/
theorem round_robin_balanced_witness :
    (_server_accept_run ⟨0, 3, [⟨[]⟩, ⟨[]⟩, ⟨[]⟩]⟩ [10, 11, 12, 13, 14]).2.count 1 =
      [(10:Int), 11, 12, 13, 14].length / 3 ∨
    (_server_accept_run ⟨0, 3, [⟨[]⟩, ⟨[]⟩, ⟨[]⟩]⟩ [10, 11, 12, 13, 14]).2.count 1 =
      ([(10:Int), 11, 12, 13, 14].length + 3 - 1) / 3 :=
  round_robin_balanced ⟨0, 3, [⟨[]⟩, ⟨[]⟩, ⟨[]⟩]⟩ [10, 11, 12, 13, 14] 1 3 rfl
    (by decide) (by decide) (by decide) (by decide)

/-- Claim C10: when the add of an accepted connection fails (allocation
or epoll registration), `_server_event_handle_listener` closes the
accepted socket, assigns the connection to no worker, and leaves
`workers_curr` unchanged — so a subsequent successful accept is
assigned to that same worker, not the next one in round-robin order. -/
theorem listener_add_failure_frame
    (s : ServerState) (fd fd2 : Int) (allocOk addOk : Bool)
    (hfd : 0 ≤ fd) (hfd2 : 0 ≤ fd2)
    (hfail : allocOk = false ∨ addOk = false) :
    (_server_event_handle_listener s fd allocOk addOk).1.workers_curr =
      s.workers_curr ∧
    Action.closeFd fd ∈ (_server_event_handle_listener s fd allocOk addOk).2.1 ∧
    (_server_event_handle_listener s fd allocOk addOk).2.2 = none ∧
    (_server_event_handle_listener
        (_server_event_handle_listener s fd allocOk addOk).1 fd2 true true).2.2 =
      some s.workers_curr := by
  have hr : (_worker_client_add (s.workers.getD s.workers_curr ⟨[]⟩) fd (-1)
      _CLIENT_STATE_HEADER none allocOk addOk).2.2 = -1 := by
    rcases hfail with h | h
    · subst h
      simp [_worker_client_add]
    · subst h
      cases allocOk <;> simp [_worker_client_add]
  simp only [List.getD_eq_getElem?_getD] at hr
  have h1 : (_server_event_handle_listener s fd allocOk addOk).1.workers_curr =
      s.workers_curr := by
    simp [_server_event_handle_listener, not_lt.mpr hfd, hr]
  refine ⟨h1, ?_, ?_, ?_⟩
  · simp [_server_event_handle_listener, not_lt.mpr hfd, hr]
  · simp [_server_event_handle_listener, not_lt.mpr hfd, hr]
  · obtain ⟨_, _, h3⟩ := listener_success_step
      (_server_event_handle_listener s fd allocOk addOk).1 fd2 hfd2
    rw [h3, h1]

/-- Claim C10 witness: a two-worker server whose epoll registration
fails for accepted descriptor 9; descriptor 10 is then accepted
successfully and lands on the same worker 0. -/
theorem listener_add_failure_frame_witness :
    (_server_event_handle_listener ⟨0, 2, [⟨[]⟩, ⟨[]⟩]⟩ 9 true false).1.workers_curr =
      (⟨0, 2, [⟨[]⟩, ⟨[]⟩]⟩ : ServerState).workers_curr ∧
    Action.closeFd 9 ∈
      (_server_event_handle_listener ⟨0, 2, [⟨[]⟩, ⟨[]⟩]⟩ 9 true false).2.1 ∧
    (_server_event_handle_listener ⟨0, 2, [⟨[]⟩, ⟨[]⟩]⟩ 9 true false).2.2 = none ∧
    (_server_event_handle_listener
        (_server_event_handle_listener ⟨0, 2, [⟨[]⟩, ⟨[]⟩]⟩ 9 true false).1 10 true
        true).2.2 = some (⟨0, 2, [⟨[]⟩, ⟨[]⟩]⟩ : ServerState).workers_curr :=
  listener_add_failure_frame ⟨0, 2, [⟨[]⟩, ⟨[]⟩]⟩ 9 10 true false (by decide)
    (by decide) (Or.inr rfl)

end HolyTunnel
